import Mathlib

/-!
Shallow embedding of the ocho CHIP-8 emulator core (src/instruction.rs,
src/framebuffer.rs, src/chip8.rs) and proofs about it.

Conventions of the embedding:
* machine integers are `Nat`; an 8-bit store wraps with `% 256` exactly where
  the Rust code performs wrapping arithmetic, and values read from `u8`-typed
  locations are byte-sized in every state reachable through the public
  operations;
* fixed-size arrays (`mem`, `v`, `stack`, pixel buffer, key states) are total
  functions from `Nat`, updated with `updf`;
* Rust panics (`assert!`, out-of-bounds slice/array indexing) are modelled by
  returning `none` from the affected operation;
* the random byte drawn by the RND instruction is passed in as an explicit
  `rnd` argument.
-/

/-- Pointwise update of a function representing a mutable array cell. -/
def updf {α : Type} (f : Nat → α) (k : Nat) (a : α) : Nat → α :=
  fun m => if m = k then a else f m

@[simp] theorem updf_same {α : Type} (f : Nat → α) (k : Nat) (a : α) :
    updf f k a k = a := by
  simp [updf]

theorem updf_other {α : Type} (f : Nat → α) (k m : Nat) (a : α) (h : m ≠ k) :
    updf f k a m = f m := by
  simp [updf, h]

/-! ## Instruction decoder (src/instruction.rs) -/

/-- The CHIP-8 instruction set, one constructor per variant of the Rust enum
`Instruction`; `Err` is the unrecognized-opcode variant carrying the raw
opcode. -/
inductive Instruction where
  | Sys (nnn : Nat)
  | Cls
  | Ret
  | Jmp (nnn : Nat)
  | Call (nnn : Nat)
  | Skeb (x : Nat) (nn : Nat)
  | Skneb (x : Nat) (nn : Nat)
  | Ske (x y : Nat)
  | Ldb (x : Nat) (nn : Nat)
  | Addb (x : Nat) (nn : Nat)
  | Ld (x y : Nat)
  | Or (x y : Nat)
  | And (x y : Nat)
  | Xor (x y : Nat)
  | Add (x y : Nat)
  | Sub (x y : Nat)
  | Shr (x y : Nat)
  | Subr (x y : Nat)
  | Shl (x y : Nat)
  | Skne (x y : Nat)
  | Ldi (nnn : Nat)
  | Jmpz (nnn : Nat)
  | Rnd (x : Nat) (nn : Nat)
  | Draw (x y : Nat) (n : Nat)
  | Skp (x : Nat)
  | Sknp (x : Nat)
  | Ldft (x : Nat)
  | Ldk (x : Nat)
  | Lddt (x : Nat)
  | Ldst (x : Nat)
  | Addi (x : Nat)
  | Font (x : Nat)
  | Bcd (x : Nat)
  | Sreg (x : Nat)
  | Lreg (x : Nat)
  | Err (value : Nat)
deriving DecidableEq

/-- `impl From<u16> for Instruction` (src/instruction.rs): total decode of a
16-bit opcode. -/
def Instruction.fromU16 (value : Nat) : Instruction :=
  let i := (value &&& 0xF000) >>> 12
  let x := (value &&& 0x0F00) >>> 8
  let y := (value &&& 0x00F0) >>> 4
  let n := value &&& 0x000F
  let nnn := value &&& 0x0FFF
  let nn := value &&& 0x00FF
  match i with
  | 0 =>
    match nnn with
    | 0x0E0 => Cls
    | 0x0EE => Ret
    | _ => Sys nnn
  | 1 => Jmp nnn
  | 2 => Call nnn
  | 3 => Skeb x nn
  | 4 => Skneb x nn
  | 5 =>
    match n with
    | 0 => Ske x y
    | _ => Err value
  | 6 => Ldb x nn
  | 7 => Addb x nn
  | 8 =>
    match n with
    | 0 => Ld x y
    | 1 => Or x y
    | 2 => And x y
    | 3 => Xor x y
    | 4 => Add x y
    | 5 => Sub x y
    | 6 => Shr x y
    | 7 => Subr x y
    | 0xE => Shl x y
    | _ => Err value
  | 9 =>
    match n with
    | 0 => Skne x y
    | _ => Err value
  | 0xA => Ldi nnn
  | 0xB => Jmpz nnn
  | 0xC => Rnd x nn
  | 0xD => Draw x y n
  | 0xE =>
    match nn with
    | 0x9E => Skp x
    | 0xA1 => Sknp x
    | _ => Err value
  | 0xF =>
    match nn with
    | 0x07 => Ldft x
    | 0x0A => Ldk x
    | 0x15 => Lddt x
    | 0x18 => Ldst x
    | 0x1E => Addi x
    | 0x29 => Font x
    | 0x33 => Bcd x
    | 0x55 => Sreg x
    | 0x65 => Lreg x
    | _ => Err value
  | _ => Err value

/-- True exactly on `Err v`: the instruction is the unrecognized variant
carrying the raw opcode `v`. -/
def Instruction.isErrOf (ins : Instruction) (v : Nat) : Bool :=
  match ins with
  | .Err w => w == v
  | _ => false

/-- Modelled from the spec, for comparison with the decoder: the set of the 35
well-formed encodings listed in the spec (0nnn/00E0/00EE, 1nnn, 2nnn, 3xnn,
4xnn, 5xy0, 6xnn, 7xnn, 8xy0..8xy7 and 8xyE, 9xy0, Annn, Bnnn, Cxnn, Dxyn,
Ex9E, ExA1, Fx07, Fx0A, Fx15, Fx18, Fx1E, Fx29, Fx33, Fx55, Fx65): the high
nibble selects a top-level group and for groups 5, 8, 9, E, F a second-level
selector (low nibble or full low byte) resolves membership. -/
def specRecognized (v : Nat) : Bool :=
  let hi := (v &&& 0xF000) >>> 12
  let n := v &&& 0x000F
  let nn := v &&& 0x00FF
  (hi == 0) || (hi == 1) || (hi == 2) || (hi == 3) || (hi == 4) ||
  (hi == 5 && n == 0) || (hi == 6) || (hi == 7) ||
  (hi == 8 && (n == 0 || n == 1 || n == 2 || n == 3 || n == 4 || n == 5 ||
               n == 6 || n == 7 || n == 0xE)) ||
  (hi == 9 && n == 0) || (hi == 0xA) || (hi == 0xB) || (hi == 0xC) ||
  (hi == 0xD) ||
  (hi == 0xE && (nn == 0x9E || nn == 0xA1)) ||
  (hi == 0xF && (nn == 0x07 || nn == 0x0A || nn == 0x15 || nn == 0x18 ||
                 nn == 0x1E || nn == 0x29 || nn == 0x33 || nn == 0x55 ||
                 nn == 0x65))

/-- Auxiliary case analysis for the decoder: an opcode decodes to the
unrecognized variant (carrying the raw opcode) exactly when it is outside the
35 well-formed encodings. -/
theorem fromU16_isErrOf_eq (v : Nat) :
    (Instruction.fromU16 v).isErrOf v = !specRecognized v := by
  unfold Instruction.fromU16 specRecognized
  dsimp only []
  split <;>
    first
      | (simp_all [Instruction.isErrOf]; done)
      | (generalize (v &&& 4095 : Nat) = m
         split <;> simp_all [Instruction.isErrOf])

/-! ## Framebuffer (src/framebuffer.rs) -/

/-- Display width in pixels (`DISPLAY_WIDTH`). -/
def WIDTH : Nat := 64

/-- Display height in pixels (`DISPLAY_HEIGHT`). -/
def HEIGHT : Nat := 32

/-- The monochrome framebuffer: `buffer` is the pixel array of length
`HEIGHT * WIDTH` (indexed row-major, `y * WIDTH + x`), `updated` the dirty
flag. -/
structure Framebuffer where
  buffer : Nat → Bool
  updated : Bool

/-- `impl Index for Framebuffer`: read pixel `(i, j)`, coordinates wrapped
modulo width/height before indexing. -/
def Framebuffer.get (fb : Framebuffer) (i j : Nat) : Bool :=
  fb.buffer ((j % HEIGHT) * WIDTH + i % WIDTH)

/-- `impl IndexMut for Framebuffer`: write pixel `(i, j)` (coordinates wrapped
modulo width/height) and set the dirty flag. -/
def Framebuffer.set (fb : Framebuffer) (i j : Nat) (b : Bool) : Framebuffer :=
  { buffer := updf fb.buffer ((j % HEIGHT) * WIDTH + i % WIDTH) b,
    updated := true }

/-- `Framebuffer::new`: all pixels unset, dirty flag false. -/
def Framebuffer.new : Framebuffer :=
  { buffer := fun _ => false, updated := false }

/-- `Framebuffer::clear`: unset all pixels and set the dirty flag. -/
def Framebuffer.clear (_fb : Framebuffer) : Framebuffer :=
  { buffer := fun _ => false, updated := true }

/-- The buffer index a drawn coordinate pair `(i, j)` lands on. -/
def pixIdx (ij : Nat × Nat) : Nat :=
  (ij.2 % HEIGHT) * WIDTH + ij.1 % WIDTH

/-- The sprite bit consulted for coordinate pair `(i, j)` when drawing sprite
rows `sprite` anchored at the (already wrapped) origin `(x, y)`:
`(sprite[j - y] >> (7 - (i - x))) & 1 == 1`. -/
def spriteBit (sprite : List Nat) (x y : Nat) (ij : Nat × Nat) : Bool :=
  ((sprite.getD (ij.2 - y) 0 >>> (7 - (ij.1 - x))) &&& 1) == 1

/-- One iteration of the nested pixel loop of `Framebuffer::draw`: XOR the
sprite bit for `(i, j)` into the pixel, recording a collision when a set pixel
is unset. -/
def drawStep (sprite : List Nat) (x y : Nat) (acc : Framebuffer × Bool)
    (ij : Nat × Nat) : Framebuffer × Bool :=
  let spritePixel := spriteBit sprite x y ij
  if spritePixel && acc.1.get ij.1 ij.2 then
    (acc.1.set ij.1 ij.2 false, true)
  else if spritePixel && !acc.1.get ij.1 ij.2 then
    (acc.1.set ij.1 ij.2 true, acc.2)
  else acc

/-- The coordinate pairs visited by the two nested loops of
`Framebuffer::draw` (`for i in x..max_x { for j in y..max_y { .. } }`), in
iteration order, after the origin has been wrapped and the extents clipped
(wrap disabled) or left whole (wrap enabled). -/
def drawPairs (x y n : Nat) (wrap : Bool) : List (Nat × Nat) :=
  let x := x % WIDTH
  let y := y % HEIGHT
  let maxX := if wrap then x + 8 else min (x + 8) WIDTH
  let maxY := if wrap then y + n else min (y + n) HEIGHT
  (List.range' x (maxX - x)).flatMap fun i =>
    (List.range' y (maxY - y)).map fun j => (i, j)

/-- `Framebuffer::draw`: composite an 8-wide, `n`-tall sprite at `(x, y)` with
XOR semantics, returning the new framebuffer and whether any pixel was flipped
from set to unset; `none` models the `assert_eq!(sprite.len(), n)` panic. -/
def Framebuffer.draw (fb : Framebuffer) (x y n : Nat) (sprite : List Nat)
    (wrap : Bool) : Option (Framebuffer × Bool) :=
  if sprite.length = n then
    some ((drawPairs x y n wrap).foldl (drawStep sprite (x % WIDTH) (y % HEIGHT))
      (fb, false))
  else none

theorem Framebuffer.draw_eq (fb : Framebuffer) (x y n : Nat) (sprite : List Nat)
    (wrap : Bool) (hlen : sprite.length = n) :
    fb.draw x y n sprite wrap =
      some ((drawPairs x y n wrap).foldl (drawStep sprite (x % WIDTH) (y % HEIGHT))
        (fb, false)) := by
  simp [Framebuffer.draw, hlen]

/-! ### Characterization of the draw loop -/

theorem drawStep_updated (sprite : List Nat) (x y : Nat) (acc : Framebuffer × Bool)
    (ij : Nat × Nat) :
    ((drawStep sprite x y acc ij).1).updated
      = (acc.1.updated || spriteBit sprite x y ij) := by
  unfold drawStep
  cases hb : spriteBit sprite x y ij <;>
    cases hg : acc.1.get ij.1 ij.2 <;>
      simp [hb, hg, Framebuffer.set]

theorem drawStep_buffer (sprite : List Nat) (x y : Nat) (acc : Framebuffer × Bool)
    (ij : Nat × Nat) (q : Nat) :
    ((drawStep sprite x y acc ij).1).buffer q
      = Bool.xor (acc.1.buffer q)
          (decide (pixIdx ij = q) && spriteBit sprite x y ij) := by
  have hget : acc.1.get ij.1 ij.2 = acc.1.buffer (pixIdx ij) := rfl
  have hset : ∀ b, (acc.1.set ij.1 ij.2 b).buffer = updf acc.1.buffer (pixIdx ij) b :=
    fun _ => rfl
  unfold drawStep
  by_cases hq : pixIdx ij = q
  · subst hq
    cases hb : spriteBit sprite x y ij <;>
      cases hg : acc.1.buffer (pixIdx ij) <;>
        simp [hb, hget, hg, hset, updf]
  · have hq2 : q ≠ pixIdx ij := fun h => hq h.symm
    cases hb : spriteBit sprite x y ij <;>
      cases hg : acc.1.buffer (pixIdx ij) <;>
        simp [hb, hget, hg, hset, updf, hq, hq2]

theorem drawStep_ret (sprite : List Nat) (x y : Nat) (acc : Framebuffer × Bool)
    (ij : Nat × Nat) :
    (drawStep sprite x y acc ij).2
      = (acc.2 || (spriteBit sprite x y ij && acc.1.buffer (pixIdx ij))) := by
  have hget : acc.1.get ij.1 ij.2 = acc.1.buffer (pixIdx ij) := rfl
  unfold drawStep
  cases hb : spriteBit sprite x y ij <;>
    cases hg : acc.1.buffer (pixIdx ij) <;>
      simp [hb, hget, hg]

theorem foldDraw_updated (sprite : List Nat) (x y : Nat) :
    ∀ (pairs : List (Nat × Nat)) (acc : Framebuffer × Bool),
      ((pairs.foldl (drawStep sprite x y) acc).1).updated
        = (acc.1.updated || pairs.any (spriteBit sprite x y))
  | [], acc => by simp
  | ij :: t, acc => by
      rw [List.foldl_cons, foldDraw_updated sprite x y t _, drawStep_updated,
        List.any_cons, Bool.or_assoc]

theorem parity_add_bit (c : Nat) (b : Bool) :
    (((c + if b then 1 else 0) % 2) == 1) = Bool.xor ((c % 2) == 1) b := by
  cases b <;> rcases Nat.mod_two_eq_zero_or_one c with h | h <;>
    simp [Nat.add_mod, h]

theorem foldDraw_buffer (sprite : List Nat) (x y : Nat) :
    ∀ (pairs : List (Nat × Nat)) (acc : Framebuffer × Bool) (q : Nat),
      ((pairs.foldl (drawStep sprite x y) acc).1).buffer q
        = Bool.xor (acc.1.buffer q)
            (((pairs.countP fun ij =>
                decide (pixIdx ij = q) && spriteBit sprite x y ij) % 2) == 1)
  | [], acc, q => by simp
  | ij :: t, acc, q => by
      rw [List.foldl_cons, foldDraw_buffer sprite x y t _ q, drawStep_buffer,
        List.countP_cons, parity_add_bit, Bool.xor_assoc]
      congr 1
      rw [Bool.xor_comm]

theorem any_congrOn {α : Type} :
    ∀ (l : List α) (f g : α → Bool), (∀ a ∈ l, f a = g a) → l.any f = l.any g
  | [], _, _, _ => rfl
  | a :: t, f, g, h => by
      rw [List.any_cons, List.any_cons, h a (by simp),
        any_congrOn t f g fun b hb => h b (by simp [hb])]

theorem foldDraw_ret (sprite : List Nat) (x y : Nat) :
    ∀ (pairs : List (Nat × Nat)) (acc : Framebuffer × Bool),
      ((pairs.map pixIdx).Nodup) →
      (pairs.foldl (drawStep sprite x y) acc).2
        = (acc.2 || pairs.any fun ij =>
            spriteBit sprite x y ij && acc.1.buffer (pixIdx ij))
  | [], acc, _ => by simp
  | ij :: t, acc, hnd => by
      rw [List.map_cons, List.nodup_cons] at hnd
      obtain ⟨hnotin, hnd2⟩ := hnd
      rw [List.foldl_cons, foldDraw_ret sprite x y t _ hnd2, drawStep_ret,
        List.any_cons, ← Bool.or_assoc]
      congr 1
      apply any_congrOn
      intro a ha
      have hne : pixIdx ij ≠ pixIdx a := by
        intro h
        exact hnotin (h ▸ List.mem_map_of_mem pixIdx ha)
      rw [drawStep_buffer]
      simp [hne]

theorem nodup_col (c : Nat) :
    ∀ (h y0 : Nat), h ≤ 32 →
      (((List.range' y0 h).map fun j => (j % 32) * 64 + c)).Nodup
  | 0, y0, _ => by simp
  | h1 + 1, y0, hh => by
      rw [List.range'_succ, List.map_cons, List.nodup_cons]
      constructor
      · intro hmem
        obtain ⟨j, hj, heq⟩ := List.mem_map.1 hmem
        obtain ⟨k, hk, rfl⟩ := List.mem_range'.1 hj
        omega
      · exact nodup_col c h1 (y0 + 1) (by omega)

theorem nodup_grid :
    ∀ (w x0 : Nat), w ≤ 64 → ∀ (h y0 : Nat), h ≤ 32 →
      ((List.range' x0 w).flatMap fun i =>
        (List.range' y0 h).map fun j => (j % 32) * 64 + i % 64).Nodup
  | 0, x0, _, h, y0, _ => by simp
  | w1 + 1, x0, hw, h, y0, hh => by
      rw [List.range'_succ, List.flatMap_cons, List.nodup_append]
      refine ⟨nodup_col (x0 % 64) h y0 hh,
        nodup_grid w1 (x0 + 1) (by omega) h y0 hh, ?_⟩
      intro a ha hb
      obtain ⟨j, hj, rfl⟩ := List.mem_map.1 ha
      obtain ⟨i, hi, hbi⟩ := List.mem_flatMap.1 hb
      obtain ⟨j2, hj2, heq⟩ := List.mem_map.1 hbi
      obtain ⟨k, hk, rfl⟩ := List.mem_range'.1 hi
      omega

theorem drawPairs_nodup (x y n : Nat) (wrap : Bool) (hn : n ≤ 32) :
    ((drawPairs x y n wrap).map pixIdx).Nodup := by
  unfold drawPairs
  rw [List.map_flatMap]
  simp only [List.map_map]
  have hcomp : ∀ i : Nat,
      (pixIdx ∘ fun j => (i, j)) = fun j => (j % 32) * 64 + i % 64 := fun _ => rfl
  simp only [hcomp]
  cases wrap <;> dsimp only [WIDTH, HEIGHT] <;>
    refine nodup_grid _ _ ?_ _ _ ?_ <;> simp <;> omega

theorem countP_pix (sprite : List Nat) (x y : Nat) :
    ∀ (pairs : List (Nat × Nat)), ((pairs.map pixIdx).Nodup) →
      ∀ ij ∈ pairs,
        (pairs.countP fun ij2 =>
            decide (pixIdx ij2 = pixIdx ij) && spriteBit sprite x y ij2)
          = if spriteBit sprite x y ij then 1 else 0
  | [], _, ij, hmem => absurd hmem (by simp)
  | h1 :: t, hnd, ij, hmem => by
      rw [List.map_cons, List.nodup_cons] at hnd
      obtain ⟨hnotin, hnd2⟩ := hnd
      rw [List.countP_cons]
      rcases List.mem_cons.1 hmem with rfl | hmem2
      · have ht : (t.countP fun ij2 =>
            decide (pixIdx ij2 = pixIdx ij) && spriteBit sprite x y ij2) = 0 := by
          rw [List.countP_eq_zero]
          intro a ha
          have hne : pixIdx a ≠ pixIdx ij :=
            fun h => hnotin (h ▸ List.mem_map_of_mem pixIdx ha)
          simp [hne]
        rw [ht]
        simp
      · have hne : pixIdx h1 ≠ pixIdx ij := by
          intro h
          exact hnotin (by rw [h]; exact List.mem_map_of_mem pixIdx hmem2)
        rw [countP_pix sprite x y t hnd2 ij hmem2]
        simp [hne]

/-- The visible part of a sprite draw: true when some coordinate pair visited
by the draw loops carries a sprite bit equal to 1. -/
def visibleBit (sprite : List Nat) (x y n : Nat) (wrap : Bool) : Bool :=
  (drawPairs x y n wrap).any (spriteBit sprite (x % WIDTH) (y % HEIGHT))

/-- C3 (amended): for a sprite of height at most 32 whose visible part is
nonempty, drawing it on a clear framebuffer reports no collision, drawing it
again reports a collision and restores the all-clear framebuffer. -/
theorem draw_twice_involution (sprite : List Nat) (n x y : Nat) (wrap : Bool)
    (hlen : sprite.length = n) (hn : n ≤ 32)
    (hvis : visibleBit sprite x y n wrap = true) :
    ∃ fb1 fb2,
      Framebuffer.new.draw x y n sprite wrap = some (fb1, false) ∧
      fb1.draw x y n sprite wrap = some (fb2, true) ∧
      ∀ p, fb2.buffer p = false := by
  have hnd : ((drawPairs x y n wrap).map pixIdx).Nodup := drawPairs_nodup x y n wrap hn
  set x0 := x % WIDTH with hx0
  set y0 := y % HEIGHT with hy0
  set pairs := drawPairs x y n wrap with hpairs
  set r1 := pairs.foldl (drawStep sprite x0 y0) (Framebuffer.new, false) with hr1
  have hdraw1 : Framebuffer.new.draw x y n sprite wrap = some r1 :=
    Framebuffer.draw_eq _ _ _ _ _ _ hlen
  have hret1 : r1.2 = false := by
    rw [hr1, foldDraw_ret sprite x0 y0 pairs _ hnd]
    simp [Framebuffer.new]
  have hbuf1 : ∀ q, r1.1.buffer q =
      (((pairs.countP fun ij =>
          decide (pixIdx ij = q) && spriteBit sprite x0 y0 ij) % 2) == 1) := by
    intro q
    rw [hr1, foldDraw_buffer]
    simp [Framebuffer.new]
  set r2 := pairs.foldl (drawStep sprite x0 y0) (r1.1, false) with hr2
  have hdraw2 : r1.1.draw x y n sprite wrap = some r2 :=
    Framebuffer.draw_eq _ _ _ _ _ _ hlen
  have hbit : ∀ ij ∈ pairs, spriteBit sprite x0 y0 ij = true →
      r1.1.buffer (pixIdx ij) = true := by
    intro ij hmem hb
    rw [hbuf1 (pixIdx ij), countP_pix sprite x0 y0 pairs hnd ij hmem, hb]
    rfl
  have hret2 : r2.2 = true := by
    rw [hr2, foldDraw_ret sprite x0 y0 pairs _ hnd]
    simp only [Bool.false_or]
    obtain ⟨ij, hmem, hb⟩ := List.any_eq_true.1 hvis
    exact List.any_eq_true.2 ⟨ij, hmem, by rw [hbit ij hmem hb, hb]; rfl⟩
  have hbuf2 : ∀ p, r2.1.buffer p = false := by
    intro p
    rw [hr2, foldDraw_buffer, hbuf1 p, Bool.xor_self]
  refine ⟨r1.1, r2.1, ?_, ?_, hbuf2⟩
  · rw [hdraw1, ← hret1]
  · rw [hdraw2, ← hret2]

/-- C9: the draw loop sets the dirty flag exactly when a visible sprite bit is
1 (leaving it otherwise unchanged), and clear always sets it. -/
theorem draw_updated_iff :
    (∀ (fb : Framebuffer) (x y n : Nat) (sprite : List Nat) (wrap : Bool)
        (p : Framebuffer × Bool),
        fb.draw x y n sprite wrap = some p →
        p.1.updated = (fb.updated || visibleBit sprite x y n wrap)) ∧
    (∀ fb : Framebuffer, (fb.clear).updated = true) := by
  constructor
  · intro fb x y n sprite wrap p hp
    by_cases hlen : sprite.length = n
    · rw [Framebuffer.draw_eq _ _ _ _ _ _ hlen] at hp
      cases hp
      rw [foldDraw_updated]
      rfl
    · simp [Framebuffer.draw, hlen] at hp
  · intro fb
    rfl

/-! ### Concrete draws for the wrap/clip property and the clipped-sprite
counterexample -/

/-- 8x1 all-ones sprite drawn at x=60, y=0 with wrap disabled. -/
def clipDemo : Option (Framebuffer × Bool) :=
  Framebuffer.new.draw 60 0 1 [0xFF] false

/-- 8x1 all-ones sprite drawn at x=60, y=0 with wrap enabled. -/
def wrapDemo : Option (Framebuffer × Bool) :=
  Framebuffer.new.draw 60 0 1 [0xFF] true

/-- Pixel readout of a draw result (`true` as junk value on the panic case,
which never occurs in these uses). -/
def drawnPixel (o : Option (Framebuffer × Bool)) (i j : Nat) : Bool :=
  match o with
  | some r => r.1.get i j
  | none => true

/-- Collision flag of a draw result. -/
def drawnCollision (o : Option (Framebuffer × Bool)) : Option Bool :=
  o.map fun r => r.2

/-- C5: at x=60 on the 64-wide display, the clipped draw sets exactly the four
pixels in columns 60..63 of row 0, the wrapping draw exactly columns 60..63
and 0..3 of row 0. -/
theorem wrap_vs_clip :
    (drawnCollision clipDemo = some false ∧
      ∀ i < 64, ∀ j < 32, drawnPixel clipDemo i j = decide (60 ≤ i ∧ j = 0)) ∧
    (drawnCollision wrapDemo = some false ∧
      ∀ i < 64, ∀ j < 32,
        drawnPixel wrapDemo i j = decide ((60 ≤ i ∨ i < 4) ∧ j = 0)) := by
  exact ⟨⟨rfl, by decide⟩, ⟨rfl, by decide⟩⟩

/-- C3 counterexample: the sprite `[0x01]` is non-empty (its last bit is set),
but drawn at x=63 with wrap disabled its only set bit is clipped, so the
second identical draw reports no collision, contrary to the claim. -/
theorem draw_twice_clipped_counterexample :
    drawnCollision ((Framebuffer.new.draw 63 0 1 [0x01] false).bind
        fun r => r.1.draw 63 0 1 [0x01] false) = some false ∧
      (0x01 : Nat) ≠ 0 := by
  exact ⟨rfl, by decide⟩

/-! ## CHIP-8 virtual machine (src/chip8.rs) -/

/-- `MEMORY_SIZE`. -/
def MEMORY_SIZE : Nat := 4096

/-- `PROGRAM_START`. -/
def PROGRAM_START : Nat := 0x200

/-- `STACK_SIZE`. -/
def STACK_SIZE : Nat := 16

/-- `KEYPAD_SIZE`. -/
def KEYPAD_SIZE : Nat := 16

/-- `GLYPH_COUNT`. -/
def GLYPH_COUNT : Nat := 16

/-- `GLYPH_SIZE`. -/
def GLYPH_SIZE : Nat := 5

/-- `FONT_DATA`: the 16 five-byte glyphs of the default font. -/
def FONT_DATA : List Nat :=
  [0xF0, 0x90, 0x90, 0x90, 0xF0,
   0x20, 0x60, 0x20, 0x20, 0x70,
   0xF0, 0x10, 0xF0, 0x80, 0xF0,
   0xF0, 0x10, 0xF0, 0x10, 0xF0,
   0x90, 0x90, 0xF0, 0x10, 0x10,
   0xF0, 0x80, 0xF0, 0x10, 0xF0,
   0xF0, 0x80, 0xF0, 0x90, 0xF0,
   0xF0, 0x10, 0x20, 0x40, 0x40,
   0xF0, 0x90, 0xF0, 0x90, 0xF0,
   0xF0, 0x90, 0xF0, 0x10, 0xF0,
   0xF0, 0x90, 0xF0, 0x90, 0x90,
   0xE0, 0x90, 0xE0, 0x90, 0xE0,
   0xF0, 0x80, 0x80, 0x80, 0xF0,
   0xE0, 0x90, 0x90, 0x90, 0xE0,
   0xF0, 0x80, 0xF0, 0x80, 0xF0,
   0xF0, 0x80, 0xF0, 0x80, 0x80]

/-- The five quirk toggles, set once at construction. -/
structure Quirks where
  vf_reset : Bool
  memory : Bool
  wrap : Bool
  shifting : Bool
  jumping : Bool

/-- The keypad: pressed-key states plus the blocking-wait sub-state of the
LDK (0xFx0A) instruction. -/
structure Keypad where
  keys : Nat → Bool
  wait : Bool
  key_released : Option Nat

/-- `Keypad::new`. -/
def Keypad.new : Keypad :=
  { keys := fun _ => false, wait := false, key_released := none }

/-- `Keypad::key_pressed`; `none` models the invalid-key assertion. -/
def Keypad.keyPressed (kp : Keypad) (key : Nat) : Option Keypad :=
  if key < KEYPAD_SIZE then
    some { kp with keys := updf kp.keys key true }
  else none

/-- `Keypad::key_released` (the event method, distinct from the field of the
same name in the Rust source): clear the key state and, when the wait
sub-state is armed, record the released key; `none` models the invalid-key
assertion. -/
def Keypad.keyReleased (kp : Keypad) (key : Nat) : Option Keypad :=
  if key < KEYPAD_SIZE then
    some { kp with keys := updf kp.keys key false,
                   key_released := if kp.wait then some key else kp.key_released }
  else none

/-- The CHIP-8 machine state. -/
structure Chip8 where
  mem : Nat → Nat
  fb : Framebuffer
  v : Nat → Nat
  i : Nat
  pc : Nat
  dt : Nat
  st : Nat
  stack : Nat → Nat
  sp : Nat
  keypad : Keypad
  quirks : Quirks

/-- `Chip8::new`: reject a ROM that does not fit above the program origin,
otherwise build the initial state (font at 0, ROM at 0x200, zeroed registers
and timers, pc at 0x200). -/
def Chip8.new (rom : List Nat) (quirks : Quirks) : Except String Chip8 :=
  if rom.length ≥ MEMORY_SIZE - PROGRAM_START then
    Except.error "program is too large to fit in memory"
  else
    Except.ok
      { mem := fun a =>
          if a < FONT_DATA.length then FONT_DATA.getD a 0
          else if PROGRAM_START ≤ a ∧ a < PROGRAM_START + rom.length then
            rom.getD (a - PROGRAM_START) 0
          else 0,
        fb := Framebuffer.new,
        v := fun _ => 0,
        i := 0,
        pc := PROGRAM_START,
        dt := 0,
        st := 0,
        stack := fun _ => 0,
        sp := 0,
        keypad := Keypad.new,
        quirks := quirks }

/-- `Chip8::fetch` (big-endian 16-bit read at `pc`); the bounds assertion is
checked by `Chip8.step`. -/
def Chip8.fetch (c : Chip8) : Nat :=
  c.mem c.pc * 256 + c.mem (c.pc + 1)

/-- `Chip8::execute`: run one decoded instruction, with the program counter
pre-incremented by 2 as in the source; `rnd` is the random byte drawn by the
RND instruction; `none` models the panics (stack underflow/overflow, memory
and keypad bounds assertions, invalid font digit). -/
def Chip8.execute (c : Chip8) (instr : Instruction) (rnd : Nat) : Option Chip8 :=
  let s := { c with pc := c.pc + 2 }
  match instr with
  | .Sys _ => some s
  | .Cls => some { s with fb := s.fb.clear }
  | .Ret =>
    if s.sp = 0 then none
    else if s.sp - 1 < STACK_SIZE then
      some { s with sp := s.sp - 1, pc := s.stack (s.sp - 1) + 2 }
    else none
  | .Jmp nnn => some { s with pc := nnn }
  | .Call nnn =>
    if s.sp = STACK_SIZE then none
    else if s.sp < STACK_SIZE then
      some { s with stack := updf s.stack s.sp (s.pc - 2), sp := s.sp + 1,
                    pc := nnn }
    else none
  | .Skeb x nn => some (if s.v x = nn then { s with pc := s.pc + 2 } else s)
  | .Skneb x nn => some (if s.v x ≠ nn then { s with pc := s.pc + 2 } else s)
  | .Ske x y => some (if s.v x = s.v y then { s with pc := s.pc + 2 } else s)
  | .Ldb x nn => some { s with v := updf s.v x nn }
  | .Addb x nn => some { s with v := updf s.v x ((s.v x + nn) % 256) }
  | .Ld x y => some { s with v := updf s.v x (s.v y) }
  | .Or x y =>
    let s1 := { s with v := updf s.v x (s.v x ||| s.v y) }
    some (if s1.quirks.vf_reset then { s1 with v := updf s1.v 0xF 0 } else s1)
  | .And x y =>
    let s1 := { s with v := updf s.v x (s.v x &&& s.v y) }
    some (if s1.quirks.vf_reset then { s1 with v := updf s1.v 0xF 0 } else s1)
  | .Xor x y =>
    let s1 := { s with v := updf s.v x (s.v x ^^^ s.v y) }
    some (if s1.quirks.vf_reset then { s1 with v := updf s1.v 0xF 0 } else s1)
  | .Add x y =>
    let value := (s.v x + s.v y) % 256
    some { s with v := updf (updf s.v x value) 0xF
                    (if 256 ≤ s.v x + s.v y then 1 else 0) }
  | .Sub x y =>
    let value := (s.v x + 256 - s.v y) % 256
    some { s with v := updf (updf s.v x value) 0xF
                    (if s.v x < s.v y then 0 else 1) }
  | .Shr x y =>
    let s1 := if s.quirks.shifting then { s with v := updf s.v x (s.v y) } else s
    let flag := s1.v x &&& 0x1
    some { s1 with v := updf (updf s1.v x (s1.v x >>> 1)) 0xF flag }
  | .Subr x y =>
    let value := (s.v y + 256 - s.v x) % 256
    some { s with v := updf (updf s.v x value) 0xF
                    (if s.v y < s.v x then 0 else 1) }
  | .Shl x y =>
    let s1 := if s.quirks.shifting then { s with v := updf s.v x (s.v y) } else s
    let flag := (s1.v x &&& 0b10000000) >>> 7
    some { s1 with v := updf (updf s1.v x ((s1.v x <<< 1) % 256)) 0xF flag }
  | .Skne x y => some (if s.v x ≠ s.v y then { s with pc := s.pc + 2 } else s)
  | .Ldi nnn => some { s with i := nnn }
  | .Jmpz nnn =>
    if s.quirks.jumping then
      let x := nnn >>> 8
      some { s with pc := nnn + s.v x }
    else
      some { s with pc := nnn + s.v 0 }
  | .Rnd x nn => some { s with v := updf s.v x (rnd % 256 &&& nn) }
  | .Draw x y n =>
    if s.i + n ≤ MEMORY_SIZE then
      match s.fb.draw (s.v x) (s.v y) n
          ((List.range n).map fun k => s.mem (s.i + k)) s.quirks.wrap with
      | some r =>
        some { s with fb := r.1, v := updf s.v 0xF (if r.2 then 1 else 0) }
      | none => none
    else none
  | .Skp x =>
    let key := s.v x
    if key < KEYPAD_SIZE then
      some (if s.keypad.keys key then { s with pc := s.pc + 2 } else s)
    else none
  | .Sknp x =>
    let key := s.v x
    if key < KEYPAD_SIZE then
      some (if !s.keypad.keys key then { s with pc := s.pc + 2 } else s)
    else none
  | .Ldft x => some { s with v := updf s.v x s.dt }
  | .Ldk x =>
    if s.keypad.wait then
      match s.keypad.key_released with
      | some key =>
        some { s with v := updf s.v x key,
                      keypad := { s.keypad with wait := false,
                                                key_released := none } }
      | none => some { s with pc := s.pc - 2 }
    else
      some { s with keypad := { s.keypad with wait := true }, pc := s.pc - 2 }
  | .Lddt x => some { s with dt := s.v x }
  | .Ldst x => some { s with st := s.v x }
  | .Addi x => some { s with i := s.i + s.v x }
  | .Font x =>
    let digit := s.v x
    if digit < GLYPH_COUNT then
      some { s with i := GLYPH_SIZE * digit }
    else none
  | .Bcd x =>
    if s.i + 2 < MEMORY_SIZE then
      some { s with mem := updf (updf (updf s.mem
                      s.i (s.v x / 100))
                      (s.i + 1) (s.v x / 10 % 10))
                      (s.i + 2) (s.v x % 10) }
    else none
  | .Sreg x =>
    if s.i + x < MEMORY_SIZE then
      some { s with
        mem := (List.range (x + 1)).foldl
          (fun m offset => updf m (s.i + offset) (s.v offset)) s.mem,
        i := if s.quirks.memory then s.i + x + 1 else s.i }
    else none
  | .Lreg x =>
    if s.i + x < MEMORY_SIZE then
      some { s with
        v := (List.range (x + 1)).foldl
          (fun w offset => updf w offset (s.mem (s.i + offset))) s.v,
        i := if s.quirks.memory then s.i + x + 1 else s.i }
    else none
  | .Err _ => some s

/-- `Chip8::step`: fetch (with the bounds assertion), decode and execute the
next instruction. -/
def Chip8.step (c : Chip8) (rnd : Nat) : Option Chip8 :=
  if c.pc + 1 < MEMORY_SIZE then
    c.execute (Instruction.fromU16 c.fetch) rnd
  else none

/-! ## Claim theorems about the virtual machine -/

/-- An all-quirks-off configuration used for concrete witnesses. -/
def quirksOff : Quirks :=
  { vf_reset := false, memory := false, wrap := false, shifting := false,
    jumping := false }

/-- A concrete machine state used for witnesses: zeroed memory and registers,
pc at the program origin. -/
def baseState : Chip8 :=
  { mem := fun _ => 0, fb := Framebuffer.new, v := fun _ => 0, i := 0,
    pc := PROGRAM_START, dt := 0, st := 0, stack := fun _ => 0, sp := 0,
    keypad := Keypad.new, quirks := quirksOff }

/-- C1: decoding is total over the 65536 16-bit opcodes, and yields the
unrecognized variant carrying the raw opcode exactly on the values outside
the 35 well-formed encodings of the spec (malformed sub-opcodes such as 5xy1
included in the gaps). -/
theorem decoder_totality (v : Nat) (hv : v < 65536) :
    (Instruction.fromU16 v).isErrOf v = !specRecognized v :=
  fromU16_isErrOf_eq v

/-- Witness for C1 at the malformed sub-opcode 0x5AB1 (a 5xy1 form). -/
theorem decoder_totality_witness :
    (0x5AB1 : Nat) < 65536 ∧
      (Instruction.fromU16 0x5AB1).isErrOf 0x5AB1 = !specRecognized 0x5AB1 :=
  ⟨by decide, decoder_totality 0x5AB1 (by decide)⟩

/-- C4: ADD Vx,Vy stores the wrapped sum in Vx and then 1 in VF on unsigned
overflow (else 0); SUB Vx,Vy stores the wrapped difference in Vx and then 1
in VF when there is no borrow (else 0); in particular 0xFF + 0x01 gives
Vx = 0x00 with VF = 1 and 0x01 - 0x02 gives Vx = 0xFF with VF = 0. -/
theorem add_sub_flags (s : Chip8) (x y rnd : Nat) :
    (s.execute (.Add x y) rnd =
      some { s with
               pc := s.pc + 2,
               v := updf (updf s.v x ((s.v x + s.v y) % 256)) 0xF
                      (if 256 ≤ s.v x + s.v y then 1 else 0) }) ∧
    (s.execute (.Sub x y) rnd =
      some { s with
               pc := s.pc + 2,
               v := updf (updf s.v x ((s.v x + 256 - s.v y) % 256)) 0xF
                      (if s.v x < s.v y then 0 else 1) }) ∧
    (s.v x = 0xFF → s.v y = 0x01 →
      s.execute (.Add x y) rnd =
        some { s with pc := s.pc + 2, v := updf (updf s.v x 0x00) 0xF 1 }) ∧
    (s.v x = 0x01 → s.v y = 0x02 →
      s.execute (.Sub x y) rnd =
        some { s with pc := s.pc + 2, v := updf (updf s.v x 0xFF) 0xF 0 }) := by
  have hadd : s.execute (.Add x y) rnd =
      some { s with
               pc := s.pc + 2,
               v := updf (updf s.v x ((s.v x + s.v y) % 256)) 0xF
                      (if 256 ≤ s.v x + s.v y then 1 else 0) } := rfl
  have hsub : s.execute (.Sub x y) rnd =
      some { s with
               pc := s.pc + 2,
               v := updf (updf s.v x ((s.v x + 256 - s.v y) % 256)) 0xF
                      (if s.v x < s.v y then 0 else 1) } := rfl
  refine ⟨hadd, hsub, ?_, ?_⟩
  · intro hvx hvy
    rw [hadd, hvx, hvy]
    norm_num
  · intro hvx hvy
    rw [hsub, hvx, hvy]
    norm_num

/-- A concrete state whose registers V0, V1 hold 0xFF and 0x01. -/
def addDemoState : Chip8 :=
  { baseState with v := updf (updf baseState.v 0 0xFF) 1 0x01 }

/-- A concrete state whose registers V0, V1 hold 0x01 and 0x02. -/
def subDemoState : Chip8 :=
  { baseState with v := updf (updf baseState.v 0 0x01) 1 0x02 }

/-- Witness for C4 at the concrete register values of the claim. -/
theorem add_sub_flags_witness :
    addDemoState.v 0 = 0xFF ∧ addDemoState.v 1 = 0x01 ∧
    subDemoState.v 0 = 0x01 ∧ subDemoState.v 1 = 0x02 ∧
    addDemoState.execute (.Add 0 1) 0 =
      some { addDemoState with
               pc := addDemoState.pc + 2,
               v := updf (updf addDemoState.v 0 0x00) 0xF 1 } ∧
    subDemoState.execute (.Sub 0 1) 0 =
      some { subDemoState with
               pc := subDemoState.pc + 2,
               v := updf (updf subDemoState.v 0 0xFF) 0xF 0 } :=
  ⟨by decide, by decide, by decide, by decide,
    (add_sub_flags addDemoState 0 1 0).2.2.1 (by decide) (by decide),
    (add_sub_flags subDemoState 0 1 0).2.2.2 (by decide) (by decide)⟩

/-- C8: executing an unrecognized opcode through `step` is never fatal and
only advances the program counter by 2; every other component of the state is
unchanged. -/
theorem unrecognized_noop (s : Chip8) (rnd w : Nat)
    (hpc : s.pc + 1 < MEMORY_SIZE)
    (hdec : Instruction.fromU16 s.fetch = .Err w) :
    s.step rnd = some { s with pc := s.pc + 2 } := by
  unfold Chip8.step
  rw [if_pos hpc, hdec]
  rfl

/-- A concrete state whose next opcode is the malformed 0x5121 (a 5xy1
form). -/
def errDemoState : Chip8 :=
  { baseState with
    mem := updf (updf baseState.mem 0x200 0x51) 0x201 0x21 }

/-- Witness for C8 at the malformed opcode 0x5121. -/
theorem unrecognized_noop_witness :
    errDemoState.pc + 1 < MEMORY_SIZE ∧
    Instruction.fromU16 errDemoState.fetch = .Err 0x5121 ∧
    errDemoState.step 0 = some { errDemoState with pc := errDemoState.pc + 2 } :=
  ⟨by decide, by decide, unrecognized_noop errDemoState 0 0x5121 (by decide) (by decide)⟩

/-- C10: ADDI adds Vx to the index register with no bounds check and never
fails; an index beyond the last valid address only becomes fatal when BCD,
SREG, LREG or a DRAW of positive height uses it. -/
theorem addi_unchecked (s : Chip8) (x y n rnd : Nat) :
    (s.execute (.Addi x) rnd =
      some { s with pc := s.pc + 2, i := s.i + s.v x }) ∧
    (MEMORY_SIZE ≤ s.i →
      s.execute (.Bcd x) rnd = none ∧
      s.execute (.Sreg x) rnd = none ∧
      s.execute (.Lreg x) rnd = none ∧
      (1 ≤ n → s.execute (.Draw x y n) rnd = none)) := by
  refine ⟨rfl, fun hi => ⟨?_, ?_, ?_, fun hn => ?_⟩⟩
  · show (if s.i + 2 < MEMORY_SIZE then _ else none) = none
    rw [if_neg (by unfold MEMORY_SIZE at *; omega)]
  · show (if s.i + x < MEMORY_SIZE then _ else none) = none
    rw [if_neg (by unfold MEMORY_SIZE at *; omega)]
  · show (if s.i + x < MEMORY_SIZE then _ else none) = none
    rw [if_neg (by unfold MEMORY_SIZE at *; omega)]
  · show (if s.i + n ≤ MEMORY_SIZE then _ else none) = none
    rw [if_neg (by unfold MEMORY_SIZE at *; omega)]

/-- A concrete state whose index register exceeds the last valid address. -/
def oobDemoState : Chip8 :=
  { baseState with i := 5000 }

/-- Witness for C10 at a concrete out-of-bounds index. -/
theorem addi_unchecked_witness :
    MEMORY_SIZE ≤ oobDemoState.i ∧ (1 : Nat) ≤ 1 ∧
    oobDemoState.execute (.Addi 0) 0 =
      some { oobDemoState with
               pc := oobDemoState.pc + 2,
               i := oobDemoState.i + oobDemoState.v 0 } ∧
    oobDemoState.execute (.Bcd 0) 0 = none ∧
    oobDemoState.execute (.Draw 0 1 1) 0 = none :=
  ⟨by decide, by decide, (addi_unchecked oobDemoState 0 1 1 0).1,
    ((addi_unchecked oobDemoState 0 1 1 0).2 (by decide)).1,
    ((addi_unchecked oobDemoState 0 1 1 0).2 (by decide)).2.2.2 (by decide)⟩

/-- The LDK arm of `Chip8::execute`, written out as a state equation. -/
theorem execute_ldk_arm (c : Chip8) (x rnd : Nat) :
    c.execute (.Ldk x) rnd =
      (if c.keypad.wait then
        match c.keypad.key_released with
        | some key =>
          some { c with pc := c.pc + 2, v := updf c.v x key,
                        keypad := { c.keypad with wait := false,
                                                  key_released := none } }
        | none => some { c with pc := c.pc + 2 - 2 }
      else
        some { c with pc := c.pc + 2 - 2,
                      keypad := { c.keypad with wait := true } }) := rfl

/-- Consuming step of LDK: with the wait sub-state armed and a release
recorded, the next step writes the key, disarms and advances. -/
theorem ldk_consume (c : Chip8) (x k rnd : Nat)
    (hpc : c.pc + 1 < MEMORY_SIZE)
    (hdec : Instruction.fromU16 c.fetch = .Ldk x)
    (hw : c.keypad.wait = true)
    (hrel : c.keypad.key_released = some k) :
    c.step rnd = some { c with
                          pc := c.pc + 2,
                          v := updf c.v x k,
                          keypad := { c.keypad with
                                        wait := false,
                                        key_released := none } } := by
  unfold Chip8.step
  rw [if_pos hpc, hdec, execute_ldk_arm, hw, hrel]
  rfl

/-- C2: LDK arms the keypad wait sub-state and leaves the program counter in
place; while armed with no recorded release, a step leaves the state
unchanged; once a release was recorded while armed, the next step writes the
key into Vx, disarms and clears the sub-state, and advances the program
counter past the instruction. -/
theorem ldk_blocking (s : Chip8) (x rnd : Nat)
    (hpc : s.pc + 1 < MEMORY_SIZE)
    (hdec : Instruction.fromU16 s.fetch = .Ldk x) :
    (s.keypad.wait = false →
      s.step rnd = some { s with keypad := { s.keypad with wait := true } }) ∧
    (s.keypad.wait = true → s.keypad.key_released = none →
      s.step rnd = some s) ∧
    (∀ k kp2, s.keypad.wait = true → s.keypad.keyReleased k = some kp2 →
      Chip8.step { s with keypad := kp2 } rnd =
        some { s with
                 v := updf s.v x k, pc := s.pc + 2,
                 keypad := { keys := updf s.keypad.keys k false,
                             wait := false, key_released := none } }) := by
  refine ⟨?_, ?_, ?_⟩
  · intro hw
    unfold Chip8.step
    rw [if_pos hpc, hdec, execute_ldk_arm, hw]
    simp
  · intro hw hrel
    unfold Chip8.step
    rw [if_pos hpc, hdec, execute_ldk_arm, hw, hrel]
    simp
  · intro k kp2 hw hkr
    unfold Keypad.keyReleased at hkr
    by_cases hk : k < KEYPAD_SIZE
    · rw [if_pos hk] at hkr
      cases hkr
      refine ldk_consume _ x k rnd hpc hdec hw ?_
      simp [hw]
    · rw [if_neg hk] at hkr
      cases hkr

/-- A concrete state whose next opcode is 0xF50A (LDK V5). -/
def ldkDemoState : Chip8 :=
  { baseState with mem := updf (updf baseState.mem 0x200 0xF5) 0x201 0x0A }

/-- Witness for C2: arming LDK on a concrete state. -/
theorem ldk_blocking_witness :
    ldkDemoState.pc + 1 < MEMORY_SIZE ∧
    Instruction.fromU16 ldkDemoState.fetch = .Ldk 5 ∧
    ldkDemoState.keypad.wait = false ∧
    ldkDemoState.step 0 =
      some { ldkDemoState with
               keypad := { ldkDemoState.keypad with wait := true } } :=
  ⟨by decide, by decide, rfl,
    (ldk_blocking ldkDemoState 5 0 (by decide) (by decide)).1 rfl⟩

/-- The CALL arm of `Chip8::execute`, written out as a state equation. -/
theorem execute_call_arm (c : Chip8) (nnn rnd : Nat) :
    c.execute (.Call nnn) rnd =
      (if c.sp = STACK_SIZE then none
       else if c.sp < STACK_SIZE then
         some { c with
                  stack := updf c.stack c.sp (c.pc + 2 - 2),
                  sp := c.sp + 1,
                  pc := nnn }
       else none) := rfl

/-- The RET arm of `Chip8::execute`, written out as a state equation. -/
theorem execute_ret_arm (c : Chip8) (rnd : Nat) :
    c.execute .Ret rnd =
      (if c.sp = 0 then none
       else if c.sp - 1 < STACK_SIZE then
         some { c with sp := c.sp - 1, pc := c.stack (c.sp - 1) + 2 }
       else none) := rfl

/-- A successful CALL pushes the pre-increment program counter (the CALL's own
address) and jumps. -/
theorem call_push (c : Chip8) (nnn rnd : Nat) (hsp : c.sp < STACK_SIZE) :
    c.execute (.Call nnn) rnd =
      some { c with stack := updf c.stack c.sp c.pc, sp := c.sp + 1,
                    pc := nnn } := by
  rw [execute_call_arm, if_neg (by omega), if_pos hsp]
  norm_num

/-- Iterated CALL execution (one CALL per list element). -/
def callRun (s : Chip8) (addrs : List Nat) (rnd : Nat) : Option Chip8 :=
  match addrs with
  | [] => some s
  | nnn :: rest =>
    match s.execute (.Call nnn) rnd with
    | some s1 => callRun s1 rest rnd
    | none => none

/-- As long as the stack has room for them, iterated CALLs all succeed, each
incrementing the stack pointer. -/
theorem callRun_ok (rnd : Nat) :
    ∀ (addrs : List Nat) (s : Chip8), s.sp + addrs.length ≤ STACK_SIZE →
      ∃ s2, callRun s addrs rnd = some s2 ∧ s2.sp = s.sp + addrs.length
  | [], s, _ => ⟨s, rfl, by simp⟩
  | nnn :: rest, s, h => by
      have hsp : s.sp < STACK_SIZE := by
        rw [List.length_cons] at h
        omega
      obtain ⟨s2, hrun, hsp2⟩ := callRun_ok rnd rest
        { s with stack := updf s.stack s.sp s.pc, sp := s.sp + 1, pc := nnn }
        (by show s.sp + 1 + rest.length ≤ STACK_SIZE
            rw [List.length_cons] at h
            omega)
      refine ⟨s2, ?_, ?_⟩
      · show (match s.execute (.Call nnn) rnd with
              | some s1 => callRun s1 rest rnd
              | none => none) = some s2
        rw [call_push s nnn rnd hsp]
        exact hrun
      · rw [hsp2]
        show s.sp + 1 + rest.length = s.sp + (nnn :: rest).length
        rw [List.length_cons]
        omega

/-- C6: from an empty stack, 16 nested CALLs succeed, each pushing the CALL's
own (pre-increment) address; a 17th CALL with a full stack is fatal, a RET
with an empty stack is fatal, and a non-fatal RET pops the top entry into the
program counter plus 2. -/
theorem call_ret_stack (s : Chip8) (nnn rnd : Nat) (addrs : List Nat) :
    (s.sp < STACK_SIZE → s.execute (.Call nnn) rnd =
      some { s with stack := updf s.stack s.sp s.pc, sp := s.sp + 1,
                    pc := nnn }) ∧
    (s.sp = STACK_SIZE → s.execute (.Call nnn) rnd = none) ∧
    (s.sp = 0 → s.execute .Ret rnd = none) ∧
    (0 < s.sp → s.sp ≤ STACK_SIZE → s.execute .Ret rnd =
      some { s with sp := s.sp - 1, pc := s.stack (s.sp - 1) + 2 }) ∧
    (s.sp = 0 → addrs.length = 16 →
      ∃ s2, callRun s addrs rnd = some s2 ∧ s2.sp = STACK_SIZE ∧
        s2.execute (.Call nnn) rnd = none) := by
  refine ⟨fun hsp => call_push s nnn rnd hsp, fun hsp => ?_, fun hsp => ?_,
    fun hsp1 hsp2 => ?_, fun hsp hlen => ?_⟩
  · rw [execute_call_arm, if_pos hsp]
  · rw [execute_ret_arm, if_pos hsp]
  · rw [execute_ret_arm, if_neg (by omega),
      if_pos (by unfold STACK_SIZE at *; omega)]
  · obtain ⟨s2, hrun, hsp2⟩ := callRun_ok rnd addrs s
      (by unfold STACK_SIZE; omega)
    have h16 : s2.sp = STACK_SIZE := by
      rw [hsp2, hsp, hlen]
      rfl
    exact ⟨s2, hrun, h16, by rw [execute_call_arm, if_pos h16]⟩

/-- A list of 16 call targets used by the C6 witness. -/
def callDemoAddrs : List Nat := List.replicate 16 0x300

/-- Witness for C6: 16 calls from the empty stack of a concrete state succeed
and the 17th is fatal; a RET on the empty stack is fatal. -/
theorem call_ret_stack_witness :
    baseState.sp = 0 ∧ callDemoAddrs.length = 16 ∧
    baseState.execute .Ret 0 = none ∧
    (∃ s2, callRun baseState callDemoAddrs 0 = some s2 ∧
      s2.sp = STACK_SIZE ∧ s2.execute (.Call 0x300) 0 = none) :=
  ⟨rfl, rfl, (call_ret_stack baseState 0x300 0 callDemoAddrs).2.2.1 rfl,
    (call_ret_stack baseState 0x300 0 callDemoAddrs).2.2.2.2 rfl rfl⟩

/-- C7: constructing the VM fails with the descriptive error (and no state)
exactly when the ROM length plus the program origin reaches the memory size;
on success the font occupies addresses 0..80, the ROM sits at 0x200.., the
program counter starts at 0x200 and registers, index, timers and stack
pointer are zero. -/
theorem new_rom_bounds (rom : List Nat) (q : Quirks) :
    (MEMORY_SIZE ≤ rom.length + PROGRAM_START →
      Chip8.new rom q = Except.error "program is too large to fit in memory") ∧
    (rom.length + PROGRAM_START < MEMORY_SIZE →
      ∃ s, Chip8.new rom q = Except.ok s ∧
        (∀ a < 80, s.mem a = FONT_DATA.getD a 0) ∧
        (∀ k < rom.length, s.mem (PROGRAM_START + k) = rom.getD k 0) ∧
        s.pc = PROGRAM_START ∧ (∀ r, s.v r = 0) ∧ s.i = 0 ∧ s.dt = 0 ∧
        s.st = 0 ∧ s.sp = 0) := by
  constructor
  · intro h
    unfold Chip8.new
    rw [if_pos (by unfold MEMORY_SIZE PROGRAM_START at *; omega)]
  · intro h
    unfold Chip8.new
    rw [if_neg (by unfold MEMORY_SIZE PROGRAM_START at *; omega)]
    refine ⟨_, rfl, ?_, ?_, rfl, fun r => rfl, rfl, rfl, rfl, rfl⟩
    · intro a ha
      have hlen : a < FONT_DATA.length := by
        rw [show FONT_DATA.length = 80 from rfl]
        omega
      simp only [hlen, if_pos]
    · intro k hk
      have h1 : ¬ PROGRAM_START + k < FONT_DATA.length := by
        rw [show FONT_DATA.length = 80 from rfl]
        unfold PROGRAM_START
        omega
      have h2 : PROGRAM_START ≤ PROGRAM_START + k ∧
          PROGRAM_START + k < PROGRAM_START + rom.length := by
        omega
      dsimp only
      rw [if_neg h1, if_pos h2, Nat.add_sub_cancel_left]

/-- Witness for C7: a one-byte ROM loads, an oversized ROM is rejected. -/
theorem new_rom_bounds_witness :
    (MEMORY_SIZE ≤ (List.replicate 3584 (0 : Nat)).length + PROGRAM_START ∧
      Chip8.new (List.replicate 3584 (0 : Nat)) quirksOff =
        Except.error "program is too large to fit in memory") ∧
    (([0xA2] : List Nat).length + PROGRAM_START < MEMORY_SIZE ∧
      ∃ s, Chip8.new [0xA2] quirksOff = Except.ok s ∧
        (∀ a < 80, s.mem a = FONT_DATA.getD a 0) ∧
        (∀ k < ([0xA2] : List Nat).length,
          s.mem (PROGRAM_START + k) = ([0xA2] : List Nat).getD k 0) ∧
        s.pc = PROGRAM_START ∧ (∀ r, s.v r = 0) ∧ s.i = 0 ∧ s.dt = 0 ∧
        s.st = 0 ∧ s.sp = 0) :=
  ⟨⟨by rw [List.length_replicate]; decide,
      (new_rom_bounds (List.replicate 3584 0) quirksOff).1
        (by rw [List.length_replicate]; decide)⟩,
    ⟨by decide, (new_rom_bounds [0xA2] quirksOff).2 (by decide)⟩⟩

/-- Witness for C9: a concrete draw whose visible bits are set turns the dirty
flag on. -/
theorem draw_updated_iff_witness :
    ∃ p, Framebuffer.new.draw 60 0 1 [0xFF] false = some p ∧
      p.1.updated = (Framebuffer.new.updated || visibleBit [0xFF] 60 0 1 false) :=
  ⟨_, Framebuffer.draw_eq _ _ _ _ _ _ rfl,
    draw_updated_iff.1 Framebuffer.new 60 0 1 [0xFF] false _
      (Framebuffer.draw_eq _ _ _ _ _ _ rfl)⟩

/-- Witness for C3 (amended): the standard 8x1 all-ones sprite at the origin. -/
theorem draw_twice_involution_witness :
    ([0xFF] : List Nat).length = 1 ∧ (1 : Nat) ≤ 32 ∧
    visibleBit [0xFF] 0 0 1 false = true ∧
    (∃ fb1 fb2, Framebuffer.new.draw 0 0 1 [0xFF] false = some (fb1, false) ∧
      fb1.draw 0 0 1 [0xFF] false = some (fb2, true) ∧
      ∀ p, fb2.buffer p = false) :=
  ⟨rfl, by decide, by decide,
    draw_twice_involution [0xFF] 1 0 0 false rfl (by decide) (by decide)⟩

/-- Witness for C5 at concrete pixels: column 63 is set in the clipped draw,
column 2 is set in the wrapping draw. -/
theorem wrap_vs_clip_witness :
    (63 : Nat) < 64 ∧ (2 : Nat) < 64 ∧ (0 : Nat) < 32 ∧
    drawnPixel clipDemo 63 0 = decide ((60 : Nat) ≤ 63 ∧ (0 : Nat) = 0) ∧
    drawnPixel wrapDemo 2 0 = decide (((60 : Nat) ≤ 2 ∨ (2 : Nat) < 4) ∧ (0 : Nat) = 0) :=
  ⟨by decide, by decide, by decide,
    wrap_vs_clip.1.2 63 (by decide) 0 (by decide),
    wrap_vs_clip.2.2 2 (by decide) 0 (by decide)⟩
